import Mathlib

/-!
# Verification of the AMQP-CPP boost.asio adapter (`include/amqpcpp/libboostasio.h`)

This file is a shallow embedding of the `LibBoostAsioHandler` class and its
nested `Watcher` and `Timer` helper classes.  All callback bodies of the
adapter execute inside one serialized strand, so the stateful C++ code is
embedded as explicit state passing over plain Lean structures:

* `Watcher` mirrors the four flags `_read`, `_read_pending`, `_write`,
  `_write_pending` of `LibBoostAsioHandler::Watcher`.  Since every handler
  body runs serialized, the `std::atomic<bool>` compare-exchange on the
  pending flags is embedded as "test, and set exactly when the current value
  is `false`".
* Arming a zero-length asynchronous operation (`async_read_some` /
  `async_write_some` on null buffers) is recorded as a boolean/counter
  effect rather than performed, and delivery of its completion is a separate
  explicit step.
* The reentrant call `connection->process(fd, direction)` made from inside
  `read_handler` / `write_handler` may itself call back into
  `monitor`/`events` on the very same watcher, so it is embedded as a
  state-transformer argument `proc : Watcher → Watcher × Bool × Bool`
  returning the updated watcher together with the read/write operations the
  reentrant call armed.
* The weak-pointer locks guarding every completion are embedded as boolean
  liveness flags: a `lock()` succeeds exactly when the owning object is
  still alive, and in the serialized model liveness cannot change between
  the successive locks of one callback.
-/

namespace AMQPAsio

/-- Completion status delivered by boost.asio to a completion handler.
`success` is the zero error code (`!ec` in the source), `wouldBlock` is
`asio::error::would_block`, `operationCanceled` is
`asio::error::operation_aborted` (aliased to `operation_canceled` in the
header), and `otherError` stands for every remaining error code. -/
inductive ECode
  | success
  | wouldBlock
  | operationCanceled
  | otherError
deriving DecidableEq, Repr

/-- The `AMQP::readable` bitmask flag (bit 0). -/
def readableFlag : Nat := 1

/-- The `AMQP::writable` bitmask flag (bit 1). -/
def writableFlag : Nat := 2

/-- State of `LibBoostAsioHandler::Watcher`: the interest flags `_read` /
`_write` and the atomic pending flags `_read_pending` / `_write_pending`. -/
structure Watcher where
  read : Bool
  read_pending : Bool
  write : Bool
  write_pending : Bool
deriving DecidableEq, Repr

/-- A freshly constructed `Watcher`: all four flags are initialised `false`
by their member initialisers. -/
def Watcher.init : Watcher := ⟨false, false, false, false⟩

/-- `Watcher::events(connection, fd, events)`: store the interest flags from
the bitmask and, for each interested direction, arm a zero-length
asynchronous operation exactly when the compare-exchange on the pending flag
flips it from `false` to `true`.  The returned booleans report whether a
read operation and a write operation were armed by this call. -/
def Watcher.events (w : Watcher) (ev : Nat) : Watcher × Bool × Bool :=
  let r := decide ((ev &&& readableFlag) ≠ 0)
  let w1 : Watcher := { w with read := r }
  let armR := r && !w1.read_pending
  let w2 : Watcher := if armR then { w1 with read_pending := true } else w1
  let wr := decide ((ev &&& writableFlag) ≠ 0)
  let w3 : Watcher := { w2 with write := wr }
  let armW := wr && !w3.write_pending
  let w4 : Watcher := if armW then { w3 with write_pending := true } else w3
  (w4, armR, armW)

/-- Observable outcome of one execution of `Watcher::read_handler` or
`Watcher::write_handler`: the final watcher state, the number of
`connection->process` calls made, whether the handler itself re-armed an
operation of its own direction, and which operations the reentrant
`process` call armed. -/
structure HandlerResult where
  w : Watcher
  processCalls : Nat
  armed : Bool
  procArmR : Bool
  procArmW : Bool
deriving DecidableEq, Repr

/-- The watcher state after the unconditional `_read_pending = false` at the
top of `Watcher::read_handler`. -/
def clearReadPending (w : Watcher) : Watcher := { w with read_pending := false }

/-- The watcher state after the unconditional `_write_pending = false` at the
top of `Watcher::write_handler`. -/
def clearWritePending (w : Watcher) : Watcher := { w with write_pending := false }

/-- The guard `(!ec || ec == asio::error::would_block) && _read` of
`Watcher::read_handler`, evaluated on the state after the pending flag was
cleared. -/
def readCond (ec : ECode) (w : Watcher) : Prop :=
  (ec = ECode.success ∨ ec = ECode.wouldBlock) ∧ w.read = true

instance (ec : ECode) (w : Watcher) : Decidable (readCond ec w) := by
  unfold readCond; infer_instance

/-- The guard `(!ec || ec == asio::error::would_block) && _write` of
`Watcher::write_handler`. -/
def writeCond (ec : ECode) (w : Watcher) : Prop :=
  (ec = ECode.success ∨ ec = ECode.wouldBlock) ∧ w.write = true

instance (ec : ECode) (w : Watcher) : Decidable (writeCond ec w) := by
  unfold writeCond; infer_instance

/-- Body of `Watcher::read_handler` after its weak-pointer lock succeeded:
clear `_read_pending`; when the status is success or would-block and
`_read` is set, call `connection->process(fd, readable)` (embedded as the
state transformer `proc`) and then arm a new zero-length read exactly when
the compare-exchange on `_read_pending` flips `false` to `true`. -/
def Watcher.read_handler (w : Watcher) (ec : ECode)
    (proc : Watcher → Watcher × Bool × Bool) : HandlerResult :=
  let w1 := clearReadPending w
  if readCond ec w1 then
    let p := proc w1
    if p.1.read_pending = false then
      ⟨{ p.1 with read_pending := true }, 1, true, p.2.1, p.2.2⟩
    else
      ⟨p.1, 1, false, p.2.1, p.2.2⟩
  else
    ⟨w1, 0, false, false, false⟩

/-- Body of `Watcher::write_handler` after its weak-pointer lock succeeded;
symmetric to `Watcher.read_handler`. -/
def Watcher.write_handler (w : Watcher) (ec : ECode)
    (proc : Watcher → Watcher × Bool × Bool) : HandlerResult :=
  let w1 := clearWritePending w
  if writeCond ec w1 then
    let p := proc w1
    if p.1.write_pending = false then
      ⟨{ p.1 with write_pending := true }, 1, true, p.2.1, p.2.2⟩
    else
      ⟨p.1, 1, false, p.2.1, p.2.2⟩
  else
    ⟨w1, 0, false, false, false⟩

/-- Characterisation of `Watcher.events`: the interest flags are overwritten
from the bitmask, a direction is armed exactly when it is requested and its
pending flag was `false`, and arming is the only way a pending flag is set. -/
theorem Watcher.events_eq (w : Watcher) (ev : Nat) :
    w.events ev =
      (⟨decide ((ev &&& readableFlag) ≠ 0),
        w.read_pending || (decide ((ev &&& readableFlag) ≠ 0) && !w.read_pending),
        decide ((ev &&& writableFlag) ≠ 0),
        w.write_pending || (decide ((ev &&& writableFlag) ≠ 0) && !w.write_pending)⟩,
       decide ((ev &&& readableFlag) ≠ 0) && !w.read_pending,
       decide ((ev &&& writableFlag) ≠ 0) && !w.write_pending) := by
  rcases w with ⟨r, rp, wr, wp⟩
  unfold Watcher.events
  cases hr : decide ((ev &&& readableFlag) ≠ 0) <;>
    cases hw : decide ((ev &&& writableFlag) ≠ 0) <;>
      cases rp <;> cases wp <;> simp [hr, hw]

/-- C1, refuted at a concrete input.  Take a watcher interested in reads with
a read completion pending, deliver a successful read completion, and let the
reentrant `connection->process` call drop read interest (calling
`events(writable)` on the same watcher, as the connection may do through
`monitor`).  After `process` returns the read direction is no longer marked
interested, yet the handler still arms a new zero-length read operation: the
claimed "re-arm iff still interested after process" fails because the source
checks `_read` only once, before calling `process`. -/
theorem c1_interest_recheck_counterexample :
    (Watcher.read_handler ⟨true, true, false, false⟩ ECode.success
        (fun w => w.events writableFlag)).armed = true ∧
    ((clearReadPending ⟨true, true, false, false⟩).events writableFlag).1.read = false := by
  constructor <;> rfl

/-- C1 (amended): on a read or write completion whose status is success or
would-block and whose direction is marked interested when the handler runs,
the handler clears that direction's pending flag, calls
`connection->process` exactly once, and then re-arms one zero-length
operation of its direction exactly when, after `process` returns, no
operation of that direction is pending (the compare-exchange on the pending
flag succeeds) — the interest flag is consulted only before `process`, not
again before re-arming.  On any other status, or when the direction is not
interested at entry, the handler clears the pending flag, does not call
`process`, and does not re-arm. -/
theorem c1_completion_handler_spec (w : Watcher) (ec : ECode)
    (proc : Watcher → Watcher × Bool × Bool) :
    (readCond ec (clearReadPending w) →
      (w.read_handler ec proc).processCalls = 1 ∧
      ((w.read_handler ec proc).armed = true ↔
        (proc (clearReadPending w)).1.read_pending = false) ∧
      ((w.read_handler ec proc).armed = true →
        (w.read_handler ec proc).w.read_pending = true)) ∧
    (¬ readCond ec (clearReadPending w) →
      w.read_handler ec proc = ⟨clearReadPending w, 0, false, false, false⟩) ∧
    (writeCond ec (clearWritePending w) →
      (w.write_handler ec proc).processCalls = 1 ∧
      ((w.write_handler ec proc).armed = true ↔
        (proc (clearWritePending w)).1.write_pending = false) ∧
      ((w.write_handler ec proc).armed = true →
        (w.write_handler ec proc).w.write_pending = true)) ∧
    (¬ writeCond ec (clearWritePending w) →
      w.write_handler ec proc = ⟨clearWritePending w, 0, false, false, false⟩) := by
  refine ⟨fun h => ?_, fun h => ?_, fun h => ?_, fun h => ?_⟩
  · unfold Watcher.read_handler
    rw [if_pos h]
    rcases hp : (proc (clearReadPending w)).1.read_pending with _ | _ <;> simp [hp]
  · unfold Watcher.read_handler
    rw [if_neg h]
  · unfold Watcher.write_handler
    rw [if_pos h]
    rcases hp : (proc (clearWritePending w)).1.write_pending with _ | _ <;> simp [hp]
  · unfold Watcher.write_handler
    rw [if_neg h]

/-- Witness for `c1_completion_handler_spec` at a concrete input: a watcher
interested in both directions, a successful completion, and a reentrant
`process` that changes nothing. -/
theorem c1_completion_handler_spec_witness :
    readCond ECode.success (clearReadPending ⟨true, true, true, true⟩) ∧
    (Watcher.read_handler ⟨true, true, true, true⟩ ECode.success
        (fun w => (w, false, false))).processCalls = 1 := by
  refine ⟨by decide, ?_⟩
  exact ((c1_completion_handler_spec ⟨true, true, true, true⟩ ECode.success
    (fun w => (w, false, false))).1 (by decide)).1

/-! ## Outstanding-operation accounting for one Watcher (claim C2)

`WSys` pairs a watcher with the number of zero-length asynchronous
operations currently outstanding in each direction.  An operation becomes
outstanding exactly when the source calls `async_read_some` /
`async_write_some` (each such call sits behind a successful pending-flag
compare-exchange), and stops being outstanding when its completion is
delivered to the handler. -/

/-- A watcher together with the count of outstanding asynchronous read and
write operations. -/
structure WSys where
  w : Watcher
  outR : Nat
  outW : Nat
deriving DecidableEq, Repr

/-- Initial system: fresh watcher, nothing outstanding. -/
def WSys.init : WSys := ⟨Watcher.init, 0, 0⟩

/-- The state transformer performed by the reentrant
`connection->process` call: either it leaves the watcher alone, or it calls
back into `Watcher::events` with some bitmask (as `TcpConnection::process`
may do through `LibBoostAsioHandler::monitor`). -/
def procOf (pf : Option Nat) : Watcher → Watcher × Bool × Bool :=
  fun w =>
    match pf with
    | none => (w, false, false)
    | some f => w.events f

/-- One externally visible event on a single watcher: an `events()` call by
the handler, or delivery of a read/write completion with some status, whose
reentrant `process` call optionally invokes `events` with a bitmask. -/
inductive WOp
  | events (flags : Nat)
  | completeRead (ec : ECode) (procFlags : Option Nat)
  | completeWrite (ec : ECode) (procFlags : Option Nat)
deriving DecidableEq, Repr

/-- Transition of the outstanding-operation system.  A completion can only
be delivered for an operation that is actually outstanding; delivering it
consumes the operation and runs the corresponding source handler, whose
armed operations (its own re-arm and anything armed by the reentrant
`events` call) become outstanding. -/
def WSys.step (s : WSys) (op : WOp) : WSys :=
  match op with
  | .events flags =>
      let e := s.w.events flags
      ⟨e.1, s.outR + (if e.2.1 then 1 else 0), s.outW + (if e.2.2 then 1 else 0)⟩
  | .completeRead ec pf =>
      if s.outR = 0 then s
      else
        let r := s.w.read_handler ec (procOf pf)
        ⟨r.w, (s.outR - 1) + (if r.procArmR then 1 else 0) + (if r.armed then 1 else 0),
              s.outW + (if r.procArmW then 1 else 0)⟩
  | .completeWrite ec pf =>
      if s.outW = 0 then s
      else
        let r := s.w.write_handler ec (procOf pf)
        ⟨r.w, s.outR + (if r.procArmR then 1 else 0),
              (s.outW - 1) + (if r.procArmW then 1 else 0) + (if r.armed then 1 else 0)⟩

/-- Run a sequence of events on the system. -/
def WSys.run (s : WSys) (ops : List WOp) : WSys := ops.foldl WSys.step s

/-- The coupling invariant behind the single-pending guarantee: the number
of outstanding operations of a direction is `1` when that direction's
pending flag is set and `0` otherwise. -/
def WSys.Inv (s : WSys) : Prop :=
  s.outR = (if s.w.read_pending then 1 else 0) ∧
  s.outW = (if s.w.write_pending then 1 else 0)

theorem WSys.inv_init : WSys.init.Inv := ⟨rfl, rfl⟩

theorem WSys.inv_step (s : WSys) (op : WOp) (h : s.Inv) : (s.step op).Inv := by
  rcases s with ⟨⟨rd, rp, wrt, wp⟩, outR, outW⟩
  rcases h with ⟨h1, h2⟩
  simp only at h1 h2
  rcases op with flags | ⟨ec, pf⟩ | ⟨ec, pf⟩
  · rcases rp <;> rcases wp <;> simp at h1 h2 <;>
      simp [WSys.step, WSys.Inv, Watcher.events_eq, h1, h2]
  · rcases rp with _ | _
    · simp at h1
      simp [WSys.step, WSys.Inv, h1, h2]
    · simp at h1
      rcases pf with _ | f
      · by_cases hc : readCond ec ⟨rd, false, wrt, wp⟩ <;>
          rcases wp <;> simp at h2 <;>
          simp [WSys.step, WSys.Inv, Watcher.read_handler, procOf, clearReadPending,
            hc, h1, h2]
      · by_cases hf1 : f &&& readableFlag = 0 <;> by_cases hf2 : f &&& writableFlag = 0 <;>
          by_cases hc : readCond ec ⟨rd, false, wrt, wp⟩ <;>
          rcases wp <;> simp at h2 <;>
          simp [WSys.step, WSys.Inv, Watcher.read_handler, procOf, clearReadPending,
            Watcher.events_eq, hc, h1, h2, hf1, hf2]
  · rcases wp with _ | _
    · simp at h2
      simp [WSys.step, WSys.Inv, h1, h2]
    · simp at h2
      rcases pf with _ | f
      · by_cases hc : writeCond ec ⟨rd, rp, wrt, false⟩ <;>
          rcases rp <;> simp at h1 <;>
          simp [WSys.step, WSys.Inv, Watcher.write_handler, procOf, clearWritePending,
            hc, h1, h2]
      · by_cases hf1 : f &&& readableFlag = 0 <;> by_cases hf2 : f &&& writableFlag = 0 <;>
          by_cases hc : writeCond ec ⟨rd, rp, wrt, false⟩ <;>
          rcases rp <;> simp at h1 <;>
          simp [WSys.step, WSys.Inv, Watcher.write_handler, procOf, clearWritePending,
            Watcher.events_eq, hc, h1, h2, hf1, hf2]

theorem WSys.inv_run (ops : List WOp) (s : WSys) (h : s.Inv) : (s.run ops).Inv := by
  induction ops generalizing s with
  | nil => exact h
  | cons op t ih => exact ih (s.step op) (s.inv_step op h)

/-- C2: along every finite sequence of `events()` calls and
completion-handler executions starting from a fresh watcher, at most one
asynchronous read operation and at most one asynchronous write operation
are outstanding, and the count of outstanding operations of a direction is
exactly the value of that direction's pending flag — an operation is armed
only by a compare-exchange flipping the flag from `false` to `true`, so the
same direction is never armed twice. -/
theorem c2_single_outstanding_op (ops : List WOp) :
    (WSys.init.run ops).outR ≤ 1 ∧ (WSys.init.run ops).outW ≤ 1 ∧
    (WSys.init.run ops).outR
      = (if (WSys.init.run ops).w.read_pending then 1 else 0) ∧
    (WSys.init.run ops).outW
      = (if (WSys.init.run ops).w.write_pending then 1 else 0) := by
  have h := WSys.inv_run ops WSys.init WSys.inv_init
  rcases h with ⟨h1, h2⟩
  refine ⟨?_, ?_, h1, h2⟩
  · rw [h1]; split <;> omega
  · rw [h2]; split <;> omega

/-! ## The descriptor map and `LibBoostAsioHandler::monitor` (claims C3, C4)

`std::map<int, std::shared_ptr<Watcher>> _watchers` is embedded as an
association list with `std::map` key semantics: `lookupW` finds the entry
for a key, `insertW` is `operator[]` + assignment (replace or append), and
`eraseW` removes the key. -/

/-- `_watchers.find(fd)`. -/
def lookupW : List (Int × Watcher) → Int → Option Watcher
  | [], _ => none
  | (k, v) :: t, fd => if k = fd then some v else lookupW t fd

/-- `_watchers[fd] = w`: replace the entry for `fd`, or append one. -/
def insertW : List (Int × Watcher) → Int → Watcher → List (Int × Watcher)
  | [], fd, w => [(fd, w)]
  | (k, v) :: t, fd, w => if k = fd then (fd, w) :: t else (k, v) :: insertW t fd w

/-- `_watchers.erase(iter)`: drop the entry for the key. -/
def eraseW : List (Int × Watcher) → Int → List (Int × Watcher)
  | [], _ => []
  | (k, v) :: t, fd => if k = fd then eraseW t fd else (k, v) :: eraseW t fd

theorem lookupW_insertW (m : List (Int × Watcher)) (fd fd' : Int) (w : Watcher) :
    lookupW (insertW m fd w) fd' = if fd = fd' then some w else lookupW m fd' := by
  induction m with
  | nil =>
      by_cases h : fd = fd' <;> simp [insertW, lookupW, h]
  | cons p t ih =>
      rcases p with ⟨k, v⟩
      by_cases hk : k = fd
      · subst hk
        by_cases h : k = fd' <;> simp [insertW, lookupW, h]
      · by_cases h : k = fd'
        · subst h
          have hne : ¬ fd = k := fun he => hk he.symm
          simp [insertW, lookupW, hk, hne]
        · simp [insertW, lookupW, hk, h, ih]

theorem lookupW_eraseW (m : List (Int × Watcher)) (fd fd' : Int) :
    lookupW (eraseW m fd) fd' = if fd = fd' then none else lookupW m fd' := by
  induction m with
  | nil => by_cases h : fd = fd' <;> simp [eraseW, lookupW, h]
  | cons p t ih =>
      rcases p with ⟨k, v⟩
      by_cases hk : k = fd
      · subst hk
        by_cases h : k = fd'
        · subst h
          simp [eraseW, lookupW, ih]
        · simp [eraseW, lookupW, h, ih]
      · by_cases h : k = fd'
        · subst h
          have hne : ¬ fd = k := fun he => hk he.symm
          simp [eraseW, lookupW, hk, hne]
        · simp [eraseW, lookupW, hk, h, ih]

/-- State of `Timer`: the deadline of the `asio::steady_timer` (`expires_at`)
and whether an `async_wait` is outstanding. -/
structure Timer where
  deadline : Nat
  armed : Bool
deriving DecidableEq, Repr

/-- State of `LibBoostAsioHandler`: the descriptor map `_watchers` and the
shared-pointer `_timer` (`none` once `onClosed` has reset it). -/
structure LibBoostAsioHandler where
  watchers : List (Int × Watcher)
  timer : Option Timer
deriving DecidableEq, Repr

/-- `LibBoostAsioHandler(io_service)`: empty watcher map, a live `Timer`
whose `steady_timer` has not been armed. -/
def LibBoostAsioHandler.init : LibBoostAsioHandler :=
  { watchers := [], timer := some ⟨0, false⟩ }

/-- `LibBoostAsioHandler::monitor(connection, fd, flags)`: look up `fd`; if
absent do nothing for `flags == 0` and otherwise construct a fresh `Watcher`,
store it and apply `events(connection, fd, flags)` to it; if present erase
it for `flags == 0` and otherwise update it via `events`. -/
def LibBoostAsioHandler.monitor (h : LibBoostAsioHandler) (fd : Int) (flags : Nat) :
    LibBoostAsioHandler :=
  match lookupW h.watchers fd with
  | none =>
      if flags = 0 then h
      else { h with watchers := insertW h.watchers fd (Watcher.init.events flags).1 }
  | some w =>
      if flags = 0 then { h with watchers := eraseW h.watchers fd }
      else { h with watchers := insertW h.watchers fd (w.events flags).1 }

/-- Run a sequence of `monitor` calls, each given as `(fd, flags)`. -/
def LibBoostAsioHandler.runMonitor (h : LibBoostAsioHandler)
    (tr : List (Int × Nat)) : LibBoostAsioHandler :=
  tr.foldl (fun h p => h.monitor p.1 p.2) h

/-- The last interest flags a call trace sets for a descriptor, if any. -/
def lastFlags : List (Int × Nat) → Int → Option Nat
  | [], _ => none
  | p :: t, fd =>
      match lastFlags t fd with
      | some f => some f
      | none => if p.1 = fd then some p.2 else none

theorem monitor_mem (h : LibBoostAsioHandler) (fd fd' : Int) (flags : Nat) :
    (lookupW (h.monitor fd flags).watchers fd').isSome =
      if fd = fd' then decide (flags ≠ 0) else (lookupW h.watchers fd').isSome := by
  unfold LibBoostAsioHandler.monitor
  rcases hl : lookupW h.watchers fd with _ | w <;>
    by_cases hf : flags = 0 <;>
    by_cases he : fd = fd' <;>
    simp [hf, he, lookupW_insertW, lookupW_eraseW] <;>
    simp [← he, hl]

theorem runMonitor_mem (tr : List (Int × Nat)) (h : LibBoostAsioHandler) (fd : Int) :
    (lookupW ((h.runMonitor tr).watchers) fd).isSome =
      (match lastFlags tr fd with
       | some f => decide (f ≠ 0)
       | none => (lookupW h.watchers fd).isSome) := by
  induction tr generalizing h with
  | nil => simp [LibBoostAsioHandler.runMonitor, lastFlags]
  | cons p t ih =>
      rcases p with ⟨fd', f'⟩
      have hstep : (h.runMonitor ((fd', f') :: t)) = ((h.monitor fd' f').runMonitor t) := rfl
      rw [hstep, ih]
      rcases hlf : lastFlags t fd with _ | f
      · simp only [lastFlags, hlf]
        rw [monitor_mem]
        by_cases he : fd' = fd <;> simp [he]
      · simp [lastFlags, hlf]

/-- C3: `monitor` satisfies the four-case specification, and after any
sequence of `monitor` calls on a fresh handler a descriptor is present in
the watcher map iff the last interest flags set for it are non-zero. -/
theorem c3_monitor_cases (h : LibBoostAsioHandler) (fd : Int) (flags : Nat)
    (w : Watcher) (tr : List (Int × Nat)) (fd' : Int) :
    (lookupW h.watchers fd = none → flags = 0 → h.monitor fd flags = h) ∧
    (lookupW h.watchers fd = none → flags ≠ 0 →
      (h.monitor fd flags).watchers
        = insertW h.watchers fd (Watcher.init.events flags).1) ∧
    (lookupW h.watchers fd = some w → flags = 0 →
      (h.monitor fd flags).watchers = eraseW h.watchers fd) ∧
    (lookupW h.watchers fd = some w → flags ≠ 0 →
      (h.monitor fd flags).watchers = insertW h.watchers fd (w.events flags).1) ∧
    ((lookupW ((LibBoostAsioHandler.init.runMonitor tr).watchers) fd').isSome = true ↔
      ∃ f, lastFlags tr fd' = some f ∧ f ≠ 0) := by
  refine ⟨fun hl hf => ?_, fun hl hf => ?_, fun hl hf => ?_, fun hl hf => ?_, ?_⟩
  · simp [LibBoostAsioHandler.monitor, hl, hf]
  · simp [LibBoostAsioHandler.monitor, hl, hf]
  · simp [LibBoostAsioHandler.monitor, hl, hf]
  · simp [LibBoostAsioHandler.monitor, hl, hf]
  · rw [runMonitor_mem]
    rcases hlf : lastFlags tr fd' with _ | f <;>
      simp [LibBoostAsioHandler.init, lookupW]

/-- Witness for `c3_monitor_cases`: on a fresh handler, registering `fd = 7`
for readability creates a watcher, and the trace invariant holds for the
trace `[(7, readable)]`. -/
theorem c3_monitor_cases_witness :
    lookupW LibBoostAsioHandler.init.watchers 7 = none ∧ (1 : Nat) ≠ 0 ∧
    (LibBoostAsioHandler.init.monitor 7 1).watchers
      = insertW LibBoostAsioHandler.init.watchers 7 (Watcher.init.events 1).1 := by
  refine ⟨by decide, by decide, ?_⟩
  exact (c3_monitor_cases LibBoostAsioHandler.init 7 1 Watcher.init [] 0).2.1
    (by decide) (by decide)

/-! ## Delivery of in-flight completions (claim C4)

A completion closure armed by a `Watcher` holds only a `std::weak_ptr` to
it, while the descriptor map holds the only `std::shared_ptr`.  Erasing the
map entry therefore destroys the `Watcher`, and the closure's `lock()`
fails: in the model a delivery finds its watcher exactly when the
descriptor is still in the map. -/

/-- Delivery of an in-flight zero-length completion for some descriptor and
direction with some status. -/
inductive DOp
  | dread (fd : Int) (ec : ECode)
  | dwrite (fd : Int) (ec : ECode)
deriving DecidableEq, Repr

/-- The descriptor a delivery is for. -/
def DOp.fd : DOp → Int
  | .dread fd _ => fd
  | .dwrite fd _ => fd

/-- Deliver one completion: resolve the weak pointer (the map lookup); on
failure the callback returns without any action; on success run the
corresponding handler body and store the updated watcher.  Returns the new
handler state and the number of `connection->process(fd, _)` calls made. -/
def LibBoostAsioHandler.deliver (h : LibBoostAsioHandler) (op : DOp) :
    LibBoostAsioHandler × Nat :=
  match op with
  | .dread fd ec =>
      match lookupW h.watchers fd with
      | none => (h, 0)
      | some w =>
          let r := w.read_handler ec (fun x => (x, false, false))
          ({ h with watchers := insertW h.watchers fd r.w }, r.processCalls)
  | .dwrite fd ec =>
      match lookupW h.watchers fd with
      | none => (h, 0)
      | some w =>
          let r := w.write_handler ec (fun x => (x, false, false))
          ({ h with watchers := insertW h.watchers fd r.w }, r.processCalls)

/-- Total number of `connection->process` calls made for descriptor `fd`
while a sequence of completions is delivered. -/
def processCallsFor (fd : Int) : LibBoostAsioHandler → List DOp → Nat
  | _, [] => 0
  | h, op :: t =>
      (if op.fd = fd then (h.deliver op).2 else 0) + processCallsFor fd (h.deliver op).1 t

theorem deliver_not_watched (h : LibBoostAsioHandler) (op : DOp) (fd : Int)
    (hl : lookupW h.watchers fd = none) :
    lookupW (h.deliver op).1.watchers fd = none ∧
    (op.fd = fd → (h.deliver op).2 = 0) := by
  rcases op with ⟨fd', ec⟩ | ⟨fd', ec⟩ <;>
  · by_cases he : fd' = fd
    · subst he
      simp [LibBoostAsioHandler.deliver, hl]
    · rcases hw : lookupW h.watchers fd' with _ | w <;>
        simp [LibBoostAsioHandler.deliver, hw, lookupW_insertW, he, hl, DOp.fd]

theorem processCallsFor_not_watched (fd : Int) (ds : List DOp)
    (h : LibBoostAsioHandler) (hl : lookupW h.watchers fd = none) :
    processCallsFor fd h ds = 0 := by
  induction ds generalizing h with
  | nil => rfl
  | cons op t ih =>
      have hstep := deliver_not_watched h op fd hl
      unfold processCallsFor
      rw [ih (h.deliver op).1 hstep.1]
      by_cases he : op.fd = fd <;> simp [he, hstep.2]

/-- C4: calling `monitor(c, fd, 0)` on a watched descriptor erases its
watcher from the map — destroying the only shared owner — and afterwards no
delivery of any in-flight read or write completion, for this or any other
descriptor, ever calls `connection->process(fd, _)` again: a completion
whose weak pointer fails to lock is a no-op. -/
theorem c4_unmonitor_stops_process (h : LibBoostAsioHandler) (fd : Int)
    (hw : (lookupW h.watchers fd).isSome = true) :
    lookupW (h.monitor fd 0).watchers fd = none ∧
    ∀ ds : List DOp, processCallsFor fd (h.monitor fd 0) ds = 0 := by
  have hnone : lookupW (h.monitor fd 0).watchers fd = none := by
    rcases hl : lookupW h.watchers fd with _ | w
    · rw [hl] at hw
      simp at hw
    · simp [LibBoostAsioHandler.monitor, hl, lookupW_eraseW]
  exact ⟨hnone, fun ds => processCallsFor_not_watched fd ds _ hnone⟩

/-- Witness for `c4_unmonitor_stops_process`: watch descriptor `7`, stop
watching it, then deliver a stale successful read completion for `7`. -/
theorem c4_unmonitor_stops_process_witness :
    (lookupW (LibBoostAsioHandler.init.monitor 7 1).watchers 7).isSome = true ∧
    processCallsFor 7 ((LibBoostAsioHandler.init.monitor 7 1).monitor 7 0)
      [DOp.dread 7 ECode.success] = 0 := by
  refine ⟨by decide, ?_⟩
  exact (c4_unmonitor_stops_process (LibBoostAsioHandler.init.monitor 7 1) 7
    (by decide)).2 [DOp.dread 7 ECode.success]

/-! ## Completion closures and the weak-reference guard (claim C5) -/

/-- The closure returned by `Watcher::get_read_handler`, together with the
strand-dispatch and the lock at the top of `read_handler`: lock the weak
pointer to the watcher — on failure return immediately; if the strand is
gone run the handler body with `operation_canceled`; otherwise dispatch into
the strand, lock again and run the handler body with the delivered status.
In the serialized model the three locks of one callback see the same
liveness, so a single flag stands for all of them. -/
def Watcher.read_callback (watcherAlive strandAlive : Bool) (w : Watcher)
    (ec : ECode) (proc : Watcher → Watcher × Bool × Bool) : HandlerResult :=
  if watcherAlive = false then ⟨w, 0, false, false, false⟩
  else if strandAlive = false then w.read_handler ECode.operationCanceled proc
  else w.read_handler ec proc

/-- The closure returned by `Watcher::get_write_handler`; symmetric to
`Watcher.read_callback`. -/
def Watcher.write_callback (watcherAlive strandAlive : Bool) (w : Watcher)
    (ec : ECode) (proc : Watcher → Watcher × Bool × Bool) : HandlerResult :=
  if watcherAlive = false then ⟨w, 0, false, false, false⟩
  else if strandAlive = false then w.write_handler ECode.operationCanceled proc
  else w.write_handler ec proc

/-- Observable outcome of one execution of `Timer::timeout`: the final timer
state and the number of `connection->heartbeat()` calls made. -/
structure TimeoutResult where
  t : Timer
  heartbeats : Nat
deriving DecidableEq, Repr

/-- Body of `Timer::timeout` after its weak-pointer lock succeeded.  The
`async_wait` that triggered it has just completed, so it runs on a disarmed
timer.  On a success status: call `connection->heartbeat()` when the
connection pointer is present, advance `expires_at` by the interval
relative to the previous deadline, and re-arm with `async_wait`.  On any
error status: do nothing. -/
def Timer.timeout (tm : Timer) (ec : ECode) (hasConn : Bool)
    (interval : Nat) : TimeoutResult :=
  if ec = ECode.success then
    ⟨⟨tm.deadline + interval, true⟩, if hasConn then 1 else 0⟩
  else
    ⟨tm, 0⟩

/-- The closure returned by `Timer::get_handler`, with the same
weak-pointer/strand structure as the watcher callbacks. -/
def Timer.callback (timerAlive strandAlive : Bool) (tm : Timer) (ec : ECode)
    (hasConn : Bool) (interval : Nat) : TimeoutResult :=
  if timerAlive = false then ⟨tm, 0⟩
  else if strandAlive = false then tm.timeout ECode.operationCanceled hasConn interval
  else tm.timeout ec hasConn interval

/-- C5: every completion callback of the adapter resolves the weak reference
to its owner before anything else, and when that resolution fails — the
owner is already destroyed — the callback is a pure no-op: the state is
unchanged, `connection` is not called, and no operation is armed. -/
theorem c5_dead_owner_noop (strandAlive : Bool) (w : Watcher) (tm : Timer)
    (ec : ECode) (proc : Watcher → Watcher × Bool × Bool)
    (hasConn : Bool) (interval : Nat) :
    Watcher.read_callback false strandAlive w ec proc = ⟨w, 0, false, false, false⟩ ∧
    Watcher.write_callback false strandAlive w ec proc = ⟨w, 0, false, false, false⟩ ∧
    Timer.callback false strandAlive tm ec hasConn interval = ⟨tm, 0⟩ := by
  exact ⟨rfl, rfl, rfl⟩

/-! ## Heartbeat timer behaviour (claim C6) -/

/-- `n` consecutive successful timer fires: each one runs `Timer.timeout`
with a success status on the just-disarmed timer.  Returns the final timer
and the total number of `connection->heartbeat()` calls. -/
def Timer.fireN (tm : Timer) (hasConn : Bool) (interval : Nat) : Nat → Timer × Nat
  | 0 => (tm, 0)
  | n + 1 =>
      let r := Timer.timeout ⟨tm.deadline, false⟩ ECode.success hasConn interval
      let rest := Timer.fireN r.t hasConn interval n
      (rest.1, r.heartbeats + rest.2)

theorem Timer.timeout_success (d : Nat) (hc : Bool) (iv : Nat) :
    Timer.timeout ⟨d, false⟩ ECode.success hc iv
      = ⟨⟨d + iv, true⟩, if hc then 1 else 0⟩ := rfl

theorem fireN_deadline (hasConn : Bool) (interval : Nat) (n : Nat) (tm : Timer) :
    (Timer.fireN tm hasConn interval n).1.deadline = tm.deadline + n * interval ∧
    (Timer.fireN tm hasConn interval n).2 = n * (if hasConn then 1 else 0) := by
  induction n generalizing tm with
  | zero => simp [Timer.fireN]
  | succ k ih =>
      have h := ih ⟨tm.deadline + interval, true⟩
      simp only [Timer.fireN, Timer.timeout_success]
      constructor
      · rw [h.1]
        ring
      · rw [h.2]
        rcases hasConn <;> simp [Nat.succ_mul] <;> omega

/-- C6: a heartbeat-timer fire with a non-error status invokes
`connection->heartbeat()` exactly once (skipped when the connection pointer
is absent), moves the deadline to the previous deadline plus exactly the
interval — the current time is not even an input of the handler — and
re-arms the wait; a fire with an error or cancellation status does nothing
and leaves the timer disarmed.  Consequently `n` consecutive successful
fires advance the deadline by exactly `n * interval` and produce exactly
`n` heartbeats (none when the connection pointer is absent), with no
cumulative drift. -/
theorem c6_timeout_drift_free (d : Nat) (ec : ECode) (hasConn : Bool)
    (interval : Nat) (tm : Timer) (n : Nat) :
    (ec = ECode.success →
      Timer.timeout ⟨d, false⟩ ec hasConn interval
        = ⟨⟨d + interval, true⟩, if hasConn then 1 else 0⟩) ∧
    (ec ≠ ECode.success →
      Timer.timeout ⟨d, false⟩ ec hasConn interval = ⟨⟨d, false⟩, 0⟩) ∧
    (Timer.fireN tm hasConn interval n).1.deadline = tm.deadline + n * interval ∧
    (Timer.fireN tm hasConn interval n).2 = n * (if hasConn then 1 else 0) := by
  refine ⟨fun he => ?_, fun he => ?_, (fireN_deadline hasConn interval n tm).1,
    (fireN_deadline hasConn interval n tm).2⟩
  · simp [Timer.timeout, he]
  · simp [Timer.timeout, he]

/-- Witness for `c6_timeout_drift_free`: one successful fire at deadline 60
with interval 60 beats once and schedules 120; three successful fires from
deadline 0 schedule 180 and beat three times. -/
theorem c6_timeout_drift_free_witness :
    Timer.timeout ⟨60, false⟩ ECode.success true 60 = ⟨⟨120, true⟩, 1⟩ ∧
    (Timer.fireN ⟨0, false⟩ true 60 3).1.deadline = 180 ∧
    (Timer.fireN ⟨0, false⟩ true 60 3).2 = 3 := by
  refine ⟨?_, ?_, ?_⟩
  · exact (c6_timeout_drift_free 60 ECode.success true 60 ⟨0, false⟩ 3).1 rfl
  · have h := (c6_timeout_drift_free 60 ECode.success true 60 ⟨0, false⟩ 3).2.2.1
    simpa using h
  · have h := (c6_timeout_drift_free 60 ECode.success true 60 ⟨0, false⟩ 3).2.2.2
    simpa using h

/-! ## Arming the heartbeat timer (claims C7, C8, C9) -/

/-- `Timer::stop()`: cancel the outstanding wait.  The cancelled wait will
still complete, with `operation_aborted`, and `Timer.timeout` then does
nothing, so in the serialized model cancellation simply disarms. -/
def Timer.stop (tm : Timer) : Timer := { tm with armed := false }

/-- `Timer::set(connection, timeout)`: `stop()` any earlier wait, move the
deadline to `now + timeout` (`expires_from_now`), and arm `async_wait`. -/
def Timer.set (tm : Timer) (now : Nat) (timeout : Nat) : Timer :=
  { tm.stop with deadline := now + timeout, armed := true }

/-- `LibBoostAsioHandler::onNegotiate(connection, interval)`: return `0`
without touching the timer when `interval == 0`; otherwise dereference
`_timer` — without any null check — and call `set`.  The dereference of a
null `_timer` (after `onClosed`) is undefined behaviour, embedded as
`none`; a defined execution returns the new handler state and the returned
interval. -/
def LibBoostAsioHandler.onNegotiate (h : LibBoostAsioHandler) (now : Nat)
    (interval : Nat) : Option (LibBoostAsioHandler × Nat) :=
  if interval = 0 then some (h, 0)
  else
    match h.timer with
    | none => none
    | some tm => some ({ h with timer := some (tm.set now interval) }, interval)

/-- `LibBoostAsioHandler::onClosed(connection)`: reset the `_timer` shared
pointer (destroying the `Timer`, whose destructor cancels the wait). -/
def LibBoostAsioHandler.onClosed (h : LibBoostAsioHandler) : LibBoostAsioHandler :=
  { h with timer := none }

/-- Delivery of a heartbeat-timer completion to the handler: the closure
armed by `async_wait` holds only a `std::weak_ptr<Timer>`, and `_timer` is
the only `std::shared_ptr`, so the weak pointer locks exactly when `_timer`
is still set; on a failed lock the callback returns without action.
Returns the new handler state and the number of `heartbeat()` calls. -/
def LibBoostAsioHandler.fireTimer (h : LibBoostAsioHandler) (ec : ECode)
    (hasConn : Bool) (interval : Nat) : LibBoostAsioHandler × Nat :=
  match h.timer with
  | none => (h, 0)
  | some tm =>
      let r := Timer.timeout ⟨tm.deadline, false⟩ ec hasConn interval
      ({ h with timer := some r.t }, r.heartbeats)

/-- Deliver a sequence of timer completions, totalling the heartbeats. -/
def runFires : LibBoostAsioHandler → List (ECode × Bool × Nat) →
    LibBoostAsioHandler × Nat
  | h, [] => (h, 0)
  | h, f :: t =>
      let r := h.fireTimer f.1 f.2.1 f.2.2
      let rest := runFires r.1 t
      (rest.1, r.2 + rest.2)

/-- C7: `onNegotiate(c, 0)` arms no timer, changes nothing and returns `0`;
`onNegotiate(c, N)` with `N > 0` on a handler whose timer is alive cancels
any earlier wait, schedules the next fire at `now + N`, and returns exactly
the offered `N`. -/
theorem c7_onNegotiate_spec (h : LibBoostAsioHandler) (now interval : Nat)
    (tm : Timer) :
    (h.onNegotiate now 0 = some (h, 0)) ∧
    (interval ≠ 0 → h.timer = some tm →
      h.onNegotiate now interval
        = some ({ h with timer := some ⟨now + interval, true⟩ }, interval)) := by
  constructor
  · simp [LibBoostAsioHandler.onNegotiate]
  · intro hi ht
    simp [LibBoostAsioHandler.onNegotiate, hi, ht, Timer.set, Timer.stop]

/-- Witness for `c7_onNegotiate_spec`: negotiating interval 60 at time 5 on
the fresh handler arms the timer for 65 and returns 60. -/
theorem c7_onNegotiate_spec_witness :
    (60 : Nat) ≠ 0 ∧ LibBoostAsioHandler.init.timer = some ⟨0, false⟩ ∧
    LibBoostAsioHandler.init.onNegotiate 5 60
      = some ({ LibBoostAsioHandler.init with timer := some ⟨65, true⟩ }, 60) := by
  refine ⟨by decide, rfl, ?_⟩
  exact (c7_onNegotiate_spec LibBoostAsioHandler.init 5 60 ⟨0, false⟩).2
    (by decide) rfl

theorem runFires_closed (fires : List (ECode × Bool × Nat))
    (h : LibBoostAsioHandler) (ht : h.timer = none) :
    runFires h fires = (h, 0) := by
  induction fires with
  | nil => rfl
  | cons f t ih =>
      unfold runFires
      simp [LibBoostAsioHandler.fireTimer, ht, ih]

/-- C8: `onClosed` is idempotent — a second call finds `_timer` already
reset and resetting a null shared pointer changes nothing — and after
`onClosed` no heartbeat ever fires again: any sequence of timer completions
delivered to the closed handler fails the weak-pointer lock, invokes
`connection->heartbeat()` zero times and leaves the state unchanged. -/
theorem c8_onClosed_idempotent_no_heartbeat (h : LibBoostAsioHandler)
    (fires : List (ECode × Bool × Nat)) :
    h.onClosed.onClosed = h.onClosed ∧
    runFires h.onClosed fires = (h.onClosed, 0) := by
  exact ⟨rfl, runFires_closed fires h.onClosed rfl⟩

/-! ## Reachable handler states (claim C9) -/

/-- One operation on a `LibBoostAsioHandler` after construction: a call made
by the protocol engine (`monitor`, `onNegotiate`, `onClosed`) or the
delivery of a completion (timer fire, read/write completion). -/
inductive HOp
  | monitor (fd : Int) (flags : Nat)
  | negotiate (now interval : Nat)
  | closed
  | fire (ec : ECode) (hasConn : Bool) (interval : Nat)
  | dread (fd : Int) (ec : ECode)
  | dwrite (fd : Int) (ec : ECode)
deriving DecidableEq, Repr

/-- State transition for one handler operation.  An `onNegotiate` whose
timer dereference would be undefined behaviour (null `_timer`) is embedded
as leaving the state unchanged; `LibBoostAsioHandler.onNegotiate` itself
returning `none` is what records the undefined execution. -/
def LibBoostAsioHandler.hstep (h : LibBoostAsioHandler) (op : HOp) :
    LibBoostAsioHandler :=
  match op with
  | .monitor fd flags => h.monitor fd flags
  | .negotiate now interval =>
      match h.onNegotiate now interval with
      | some r => r.1
      | none => h
  | .closed => h.onClosed
  | .fire ec hasConn interval => (h.fireTimer ec hasConn interval).1
  | .dread fd ec => (h.deliver (.dread fd ec)).1
  | .dwrite fd ec => (h.deliver (.dwrite fd ec)).1

/-- Run a sequence of handler operations from a given state. -/
def LibBoostAsioHandler.runOps (h : LibBoostAsioHandler) (ops : List HOp) :
    LibBoostAsioHandler :=
  ops.foldl LibBoostAsioHandler.hstep h

theorem hstep_timer_isSome (h : LibBoostAsioHandler) (op : HOp)
    (hne : op ≠ HOp.closed) (ht : h.timer.isSome = true) :
    (h.hstep op).timer.isSome = true := by
  rcases op with ⟨fd, flags⟩ | ⟨now, interval⟩ | _ | ⟨ec, hc, iv⟩ | ⟨fd, ec⟩ | ⟨fd, ec⟩
  · unfold LibBoostAsioHandler.hstep LibBoostAsioHandler.monitor
    rcases hl : lookupW h.watchers fd with _ | w <;>
      by_cases hf : flags = 0 <;> simp [hl, hf, ht]
  · unfold LibBoostAsioHandler.hstep LibBoostAsioHandler.onNegotiate
    rcases htm : h.timer with _ | tm
    · rw [htm] at ht
      simp at ht
    · by_cases hi : interval = 0 <;> simp [hi, htm]
  · exact absurd rfl hne
  · unfold LibBoostAsioHandler.hstep LibBoostAsioHandler.fireTimer
    rcases htm : h.timer with _ | tm
    · rw [htm] at ht
      simp at ht
    · simp [htm]
  · unfold LibBoostAsioHandler.hstep LibBoostAsioHandler.deliver
    rcases hl : lookupW h.watchers fd with _ | w <;> simp [hl, ht]
  · unfold LibBoostAsioHandler.hstep LibBoostAsioHandler.deliver
    rcases hl : lookupW h.watchers fd with _ | w <;> simp [hl, ht]

theorem hstep_timer_none (h : LibBoostAsioHandler) (op : HOp)
    (ht : h.timer = none) : (h.hstep op).timer = none := by
  rcases op with ⟨fd, flags⟩ | ⟨now, interval⟩ | _ | ⟨ec, hc, iv⟩ | ⟨fd, ec⟩ | ⟨fd, ec⟩
  · unfold LibBoostAsioHandler.hstep LibBoostAsioHandler.monitor
    rcases hl : lookupW h.watchers fd with _ | w <;>
      by_cases hf : flags = 0 <;> simp [hl, hf, ht]
  · unfold LibBoostAsioHandler.hstep LibBoostAsioHandler.onNegotiate
    by_cases hi : interval = 0 <;> simp [hi, ht]
  · simp [LibBoostAsioHandler.hstep, LibBoostAsioHandler.onClosed]
  · simp [LibBoostAsioHandler.hstep, LibBoostAsioHandler.fireTimer, ht]
  · unfold LibBoostAsioHandler.hstep LibBoostAsioHandler.deliver
    rcases hl : lookupW h.watchers fd with _ | w <;> simp [hl, ht]
  · unfold LibBoostAsioHandler.hstep LibBoostAsioHandler.deliver
    rcases hl : lookupW h.watchers fd with _ | w <;> simp [hl, ht]

theorem runOps_timer_isSome (ops : List HOp) (h : LibBoostAsioHandler)
    (hno : HOp.closed ∉ ops) (ht : h.timer.isSome = true) :
    (h.runOps ops).timer.isSome = true := by
  induction ops generalizing h with
  | nil => exact ht
  | cons op t ih =>
      have h1 : op ≠ HOp.closed := fun he => hno (he ▸ List.mem_cons_self op t)
      have h2 : HOp.closed ∉ t := fun he => hno (List.mem_cons_of_mem op he)
      exact ih (h.hstep op) h2 (hstep_timer_isSome h op h1 ht)

theorem runOps_timer_none (ops : List HOp) (h : LibBoostAsioHandler)
    (ht : h.timer = none) : (h.runOps ops).timer = none := by
  induction ops generalizing h with
  | nil => exact ht
  | cons op t ih => exact ih (h.hstep op) (hstep_timer_none h op ht)

theorem runOps_closed_timer_none (ops : List HOp) (h : LibBoostAsioHandler)
    (hc : HOp.closed ∈ ops) : (h.runOps ops).timer = none := by
  induction ops generalizing h with
  | nil => cases hc
  | cons op t ih =>
      by_cases he : op = HOp.closed
      · subst he
        exact runOps_timer_none t _ rfl
      · have : HOp.closed ∈ t := by
          rcases List.mem_cons.mp hc with h1 | h1
          · exact absurd h1.symm he
          · exact h1
        exact ih (h.hstep op) this

/-- C9: along every operation sequence from construction, the handler's
`_timer` pointer is non-null exactly as long as `onClosed` has not been
executed; while it is non-null, `onNegotiate` with a positive interval is a
defined execution (the unchecked dereference is safe, the null branch
unreachable), and once `onClosed` has run, `onNegotiate` with a positive
interval hits the null dereference (undefined behaviour, embedded as
`none`). -/
theorem c9_timer_null_safety (ops : List HOp) (now interval : Nat) :
    (HOp.closed ∉ ops →
      (LibBoostAsioHandler.init.runOps ops).timer.isSome = true ∧
      (interval ≠ 0 →
        ((LibBoostAsioHandler.init.runOps ops).onNegotiate now interval).isSome
          = true)) ∧
    (HOp.closed ∈ ops →
      (LibBoostAsioHandler.init.runOps ops).timer = none ∧
      (interval ≠ 0 →
        (LibBoostAsioHandler.init.runOps ops).onNegotiate now interval = none)) := by
  constructor
  · intro hno
    have ht := runOps_timer_isSome ops LibBoostAsioHandler.init hno rfl
    refine ⟨ht, fun hi => ?_⟩
    rcases htm : (LibBoostAsioHandler.init.runOps ops).timer with _ | tm
    · rw [htm] at ht
      simp at ht
    · simp [LibBoostAsioHandler.onNegotiate, hi, htm]
  · intro hc
    have ht := runOps_closed_timer_none ops LibBoostAsioHandler.init hc
    exact ⟨ht, fun hi => by simp [LibBoostAsioHandler.onNegotiate, hi, ht]⟩

/-- Witness for `c9_timer_null_safety`: after `[monitor 7 readable]` the
timer is alive and negotiation is defined; after `[closed]` negotiation of
a positive interval dereferences null. -/
theorem c9_timer_null_safety_witness :
    HOp.closed ∉ [HOp.monitor 7 1] ∧
    ((LibBoostAsioHandler.init.runOps [HOp.monitor 7 1]).onNegotiate 0 60).isSome
      = true ∧
    HOp.closed ∈ [HOp.closed] ∧
    (LibBoostAsioHandler.init.runOps [HOp.closed]).onNegotiate 0 60 = none := by
  refine ⟨by decide, ?_, by decide, ?_⟩
  · exact ((c9_timer_null_safety [HOp.monitor 7 1] 0 60).1 (by decide)).2 (by decide)
  · exact ((c9_timer_null_safety [HOp.closed] 0 60).2 (by decide)).2 (by decide)

/-! ## The monitored descriptor as an external resource (claim C10) -/

/-- Operating-system state of the externally owned file descriptor: whether
it is still open, and whether it is in non-blocking mode. -/
structure FdState where
  isOpen : Bool
  nonBlocking : Bool
deriving DecidableEq, Repr

/-- `Watcher::Watcher(io_service, strand, fd)`: `_socket.assign(fd)` binds
the existing descriptor without altering it, then
`_socket.non_blocking(true)` switches it to non-blocking mode.  Returns the
fresh watcher and the descriptor's new state. -/
def Watcher.construct (fd : FdState) : Watcher × FdState :=
  (Watcher.init, { fd with nonBlocking := true })

/-- `Watcher::~Watcher()`: clear both interest flags and `_socket.release()`
the descriptor — releasing relinquishes ownership without closing the
descriptor and without restoring its previous mode, so the descriptor state
is untouched. -/
def Watcher.destruct (w : Watcher) (fd : FdState) : FdState := fd

/-- Whole life of a watcher on one descriptor: construction, any sequence
of `events` calls (the only other watcher operations, none of which touch
the descriptor itself — the source calls no descriptor API outside the
constructor and destructor), then destruction. -/
def watcherLifetime (fd : FdState) (ops : List Nat) : FdState :=
  let c := Watcher.construct fd
  Watcher.destruct (ops.foldl (fun w f => (w.events f).1) c.1) c.2

/-- C10: constructing a Watcher puts the externally owned descriptor into
non-blocking mode and leaves it open; no subsequent `events` call touches
the descriptor; and destruction releases without closing and without
restoring the mode, so after the watcher's whole lifetime the descriptor is
still open and still non-blocking. -/
theorem c10_descriptor_frame (fd : FdState) (ops : List Nat) (w : Watcher) :
    (Watcher.construct fd).2.nonBlocking = true ∧
    (Watcher.construct fd).2.isOpen = fd.isOpen ∧
    Watcher.destruct w (Watcher.construct fd).2 = (Watcher.construct fd).2 ∧
    watcherLifetime fd ops = ⟨fd.isOpen, true⟩ := by
  refine ⟨rfl, rfl, rfl, ?_⟩
  rcases fd with ⟨o, nb⟩
  rfl

end AMQPAsio
